import Mathlib

/-!
Verification of the kktemplate template-loading and caching layer.

The development is a shallow embedding of the Go package `kktemplate`
(Engine-based implementation). Filesystem access (`os.Stat`, `os.ReadFile`)
is modelled by an explicit map from path strings to a three-valued outcome:
the file is readable with some content, the file does not exist
(`os.IsNotExist` holds of the error), or access fails with some other error
(for example a permission error, where `os.IsNotExist` is false but the
returned data slice is nil). The external template engine is an abstract
parse function; caches are association lists with Go-map semantics
(insert overwrites, lookup finds the newest binding); each load operation
is a sequential state-transformer over its cache.
-/

/-- Outcome of probing a path: readable content, `os.IsNotExist`-style
absence, or some other error (permission, I/O) whose data is nil. -/
inductive FileResult where
  | ok (data : String)
  | notExist
  | otherErr
deriving DecidableEq

/-- The filesystem, as the Go code observes it: every path string is mapped
to the outcome of stat/read at that exact string. -/
abbrev Fs := String → FileResult

/-- `os.IsNotExist err` for the error produced by probing `p`. -/
def statIsNotExist (fs : Fs) (p : String) : Bool :=
  match fs p with
  | .notExist => true
  | _ => false

/-- The spec-level notion "the file at `p` exists": the probe does not
report not-exist (this is exactly the `!os.IsNotExist(err)` test the code
applies to every tier). -/
def fileExists (fs : Fs) (p : String) : Prop :=
  fs p ≠ FileResult.notExist

instance (fs : Fs) (p : String) : Decidable (fileExists fs p) := by
  unfold fileExists; infer_instance

/-- The inner closure of `LoadHtml`/`LoadText`:
`if data, err := os.ReadFile(p); !os.IsNotExist(err) { return data }; return nil`.
On a non-not-exist failure the error is swallowed and the nil data slice is
returned, indistinguishable from the not-exist branch. -/
def readFileData (fs : Fs) (p : String) : Option String :=
  match fs p with
  | .ok data => some data
  | .notExist => none
  | .otherErr => none

/-- `strings.Split(s, sep)` for a one-character separator, at the level of
character lists. -/
def splitChar (sep : Char) : List Char → List (List Char)
  | [] => [[]]
  | c :: rest =>
    let r := splitChar sep rest
    if c = sep then [] :: r
    else (c :: r.headD []) :: r.tail

/-- The `ml` computation of `getRealTemplatePath`: the piece before the
first separator when the language tag splits into more than one piece,
otherwise the empty string. -/
def baseLangOf (lang : String) : String :=
  let slang := splitChar '-' lang.data
  if slang.length > 1 then String.mk (slang.headD []) else ""

/-- `Engine.getRealTemplatePath`: three-tier fallback, first probe that is
not not-exist wins; empty string is the not-found sentinel. -/
def getRealTemplatePath (fs : Fs) (root name lang : String) : String :=
  let tmplPath := root ++ "/" ++ lang ++ "/" ++ name ++ ".tmpl"
  if statIsNotExist fs tmplPath = false then tmplPath
  else
    let ml := baseLangOf lang
    let tmplPath := root ++ "/" ++ ml ++ "/" ++ name ++ ".tmpl"
    if statIsNotExist fs tmplPath = false then tmplPath
    else
      let tmplPath := root ++ "/default/" ++ name ++ ".tmpl"
      if statIsNotExist fs tmplPath = false then tmplPath
      else ""

/-- The cache key `mapName := name + "-" + lang`. -/
def mapNameOf (name lang : String) : String :=
  name ++ "-" ++ lang

/-- A template cache: association list with Go-map semantics. -/
abbrev Cache (Tmpl : Type) := List (String × Tmpl)

/-- Go map lookup `m[k]` (newest binding wins, matching overwrite-on-insert). -/
def cacheFind {Tmpl : Type} : Cache Tmpl → String → Option Tmpl
  | [], _ => none
  | (k, v) :: rest, key => if k = key then some v else cacheFind rest key

/-- Go `delete(m, k)`: drop every binding of the key. -/
def cacheErase {Tmpl : Type} : Cache Tmpl → String → Cache Tmpl
  | [], _ => []
  | (k, v) :: rest, key =>
    if k = key then cacheErase rest key else (k, v) :: cacheErase rest key

/-- Go `m[k] = v`. -/
def cacheInsert {Tmpl : Type} (m : Cache Tmpl) (k : String) (v : Tmpl) : Cache Tmpl :=
  (k, v) :: m

/-- Errors a load operation can return (the nil-engine defensive error is
out of scope: the embedding always has a well-formed engine). -/
inductive LoadError (PErr : Type) where
  | templateNotFound
  | parseError (e : PErr)
deriving DecidableEq

/-- The commit step shared by the tail of every load operation
(`htmlLocker.Lock(); if existing := m[mapName]; existing != nil {return existing}; m[mapName] = parsed`):
re-check under the lock; an existing entry wins and the just-parsed value is
discarded, otherwise the new value is stored. Returns the value handed to
the caller and the map after the commit. -/
def commitTemplate {Tmpl : Type} (m : Cache Tmpl) (k : String) (parsed : Tmpl) :
    Tmpl × Cache Tmpl :=
  match cacheFind m k with
  | some existing => (existing, m)
  | none => (parsed, cacheInsert m k parsed)

/-- The body of `Engine.LoadHtml` after the debug-mode eviction: fast-path
cache check, path resolution + file read, parse, commit. -/
def loadHtmlCore {Tmpl PErr : Type} (parse : String → String → String → Except PErr Tmpl)
    (fs : Fs) (root : String) (m : Cache Tmpl)
    (name lang : String) : Except (LoadError PErr) Tmpl × Cache Tmpl :=
  let mapName := mapNameOf name lang
  match cacheFind m mapName with
  | some tmpl => (.ok tmpl, m)
  | none =>
    match readFileData fs (getRealTemplatePath fs root name lang) with
    | none => (.error .templateNotFound, m)
    | some data =>
      match parse lang mapName data with
      | .error e => (.error (.parseError e), m)
      | .ok parsed =>
        let c := commitTemplate m mapName parsed
        (.ok c.1, c.2)

/-- `Engine.LoadHtml`. `parse lang ident src` stands for
`html.New(ident).Funcs(e.generateHTMLFuncMap(lang)).Parse(src)`. Returns the
result and the html cache after the call. -/
def loadHtml {Tmpl PErr : Type} (parse : String → String → String → Except PErr Tmpl)
    (fs : Fs) (root : String) (debug : Bool) (m : Cache Tmpl)
    (name lang : String) : Except (LoadError PErr) Tmpl × Cache Tmpl :=
  let mapName := mapNameOf name lang
  let m := if debug then cacheErase m mapName else m
  loadHtmlCore parse fs root m name lang

/-- The body of `Engine.LoadText` after the debug-mode eviction. -/
def loadTextCore {Tmpl PErr : Type} (parse : String → String → String → Except PErr Tmpl)
    (fs : Fs) (root : String) (m : Cache Tmpl)
    (name lang : String) : Except (LoadError PErr) Tmpl × Cache Tmpl :=
  let mapName := mapNameOf name lang
  match cacheFind m mapName with
  | some tmpl => (.ok tmpl, m)
  | none =>
    match readFileData fs (getRealTemplatePath fs root name lang) with
    | none => (.error .templateNotFound, m)
    | some data =>
      match parse lang mapName data with
      | .error e => (.error (.parseError e), m)
      | .ok parsed =>
        let c := commitTemplate m mapName parsed
        (.ok c.1, c.2)

/-- `Engine.LoadText`: same protocol over the text cache,
`parse lang ident src` standing for
`text.New(ident).Funcs(e.generateTEXTFuncMap(lang)).Parse(src)`. -/
def loadText {Tmpl PErr : Type} (parse : String → String → String → Except PErr Tmpl)
    (fs : Fs) (root : String) (debug : Bool) (m : Cache Tmpl)
    (name lang : String) : Except (LoadError PErr) Tmpl × Cache Tmpl :=
  let mapName := mapNameOf name lang
  let m := if debug then cacheErase m mapName else m
  loadTextCore parse fs root m name lang

/-- The loop body of `Engine.frameExistValidate`: every frame must resolve
(for the empty language) to a nonempty path whose probe is not not-exist;
the first failure aborts the loop. -/
def framesAllExist (fs : Fs) (root : String) : List String → Bool
  | [] => true
  | frame :: rest =>
    let framePath := getRealTemplatePath fs root frame ""
    if framePath = "" then false
    else if statIsNotExist fs framePath then false
    else framesAllExist fs root rest

/-- `Engine.frameExistValidate` as a transformer of the `frameExist` memo:
returns (result, memo after the call). When the memo is already set the
filesystem is not consulted at all; otherwise the frames are probed and the
memo is set exactly when all of them resolve. -/
def frameExistValidate (fs : Fs) (root : String) (frames : List String)
    (frameExist : Bool) : Bool × Bool :=
  if frameExist then (true, true)
  else if framesAllExist fs root frames then (true, true)
  else (false, false)

/-- The body of `Engine.LoadFrameHtml` after the debug-mode eviction:
fast-path cache check, frame validation, page-path resolution, combined
parse of the page file plus every frame file (frame paths resolved with the
requested language's fallback chain), commit. -/
def loadFrameHtmlCore {Tmpl PErr : Type}
    (parseFiles : String → String → List String → Except PErr Tmpl)
    (fs : Fs) (root : String) (frames : List String)
    (m : Cache Tmpl) (frameExist : Bool) (name lang : String) :
    Except (LoadError PErr) Tmpl × Cache Tmpl × Bool :=
  let mapName := mapNameOf name lang
  match cacheFind m mapName with
  | some tmpl => (.ok tmpl, m, frameExist)
  | none =>
    let v := frameExistValidate fs root frames frameExist
    if v.1 = false then (.error .templateNotFound, m, v.2)
    else
      let tmplPath := getRealTemplatePath fs root name lang
      if tmplPath = "" then (.error .templateNotFound, m, v.2)
      else if statIsNotExist fs tmplPath then (.error .templateNotFound, m, v.2)
      else
        let filePaths := tmplPath :: frames.map (fun f => getRealTemplatePath fs root f lang)
        match parseFiles lang tmplPath filePaths with
        | .error e => (.error (.parseError e), m, v.2)
        | .ok parsed =>
          let c := commitTemplate m mapName parsed
          (.ok c.1, c.2, v.2)

/-- `Engine.LoadFrameHtml`. `parseFiles lang ident paths` stands for
`html.New(ident).Funcs(e.generateHTMLFuncMap(lang)).ParseFiles(paths...)`.
Returns the result, the frame-html cache after the call, and the
`frameExist` memo after the call. -/
def loadFrameHtml {Tmpl PErr : Type}
    (parseFiles : String → String → List String → Except PErr Tmpl)
    (fs : Fs) (root : String) (frames : List String) (debug : Bool)
    (m : Cache Tmpl) (frameExist : Bool) (name lang : String) :
    Except (LoadError PErr) Tmpl × Cache Tmpl × Bool :=
  let mapName := mapNameOf name lang
  let m := if debug then cacheErase m mapName else m
  loadFrameHtmlCore parseFiles fs root frames m frameExist name lang

/-- `_IsDebug`: the preferred variable `APP_DEBUG`, falling back to the
legacy `KKAPP_DEBUG` when the preferred one is unset/empty; the chosen
value is compared upper-cased against "TRUE". `env` is `os.Getenv`. -/
def isDebugEnv (env : String → String) : Bool :=
  let v := env "APP_DEBUG"
  let v := if v = "" then env "KKAPP_DEBUG" else v
  v.toUpper = "TRUE"

/-- The default frame set `StructTemplateFrames`. -/
def structTemplateFrames : List String :=
  ["_main", "_header_content", "_header_claim", "_footer_content", "_footer_claim"]

/-! ### Concrete fixtures (test filesystems and parsers for witnesses) -/

/-- A filesystem with no files at all. -/
def fsAllMissing : Fs := fun _ => .notExist

/-- A filesystem whose only file sits at the collapsed double-slash path
`r//n.tmpl` (on a real disk this is `r/n.tmpl`, reachable because the probe
string for an empty base language contains an empty segment). -/
def fsDoubleSlash : Fs := fun p => if p = "r//n.tmpl" then .ok "X" else .notExist

/-- A filesystem holding only the page file `r/en/page.tmpl`; every frame
file is absent. -/
def fsPageOnly : Fs := fun p => if p = "r/en/page.tmpl" then .ok "P" else .notExist

/-- A filesystem where the exact-language template exists but reading it
fails with a non-not-exist error (for example a permission error). -/
def fsPermDenied : Fs := fun p => if p = "r/en/n.tmpl" then .otherErr else .notExist

/-- A filesystem where every path is readable with the same content. -/
def fsAllOk : Fs := fun _ => .ok "src"

/-- A parser that always succeeds with the token 7. -/
def parseOk7 : String → String → String → Except Unit Nat := fun _ _ _ => .ok 7

/-- A multi-file parser that always succeeds with the token 7. -/
def parseFilesOk7 : String → String → List String → Except Unit Nat := fun _ _ _ => .ok 7

/-! ### Cache lemmas -/

theorem cacheFind_insert_self {Tmpl : Type} (m : Cache Tmpl) (k : String) (v : Tmpl) :
    cacheFind (cacheInsert m k v) k = some v := by
  simp [cacheInsert, cacheFind]

theorem cacheFind_erase_self {Tmpl : Type} (m : Cache Tmpl) (k : String) :
    cacheFind (cacheErase m k) k = none := by
  induction m with
  | nil => rfl
  | cons p rest ih =>
    obtain ⟨k₀, v₀⟩ := p
    by_cases h : k₀ = k
    · simpa [cacheErase, h] using ih
    · simpa [cacheErase, cacheFind, h] using ih

theorem cacheFind_erase_ne {Tmpl : Type} (m : Cache Tmpl) (k k' : String) (h : k' ≠ k) :
    cacheFind (cacheErase m k) k' = cacheFind m k' := by
  induction m with
  | nil => rfl
  | cons p rest ih =>
    obtain ⟨k₀, v₀⟩ := p
    rw [cacheErase]
    by_cases hk : k₀ = k
    · have hne : ¬ k₀ = k' := fun hc => h (hc ▸ hk)
      rw [if_pos hk]
      simp only [cacheFind, if_neg hne]
      exact ih
    · rw [if_neg hk]
      simp only [cacheFind]
      rw [ih]

/-! ### Load-operation lemmas -/

theorem loadHtmlCore_ok_find {Tmpl PErr : Type}
    (parse : String → String → String → Except PErr Tmpl)
    (fs : Fs) (root : String) (m : Cache Tmpl) (name lang : String)
    (t : Tmpl) (m' : Cache Tmpl)
    (h : loadHtmlCore parse fs root m name lang = (.ok t, m')) :
    cacheFind m' (mapNameOf name lang) = some t := by
  unfold loadHtmlCore at h
  cases hfind : cacheFind m (mapNameOf name lang) with
  | some tmpl =>
    simp only [hfind, Prod.mk.injEq] at h
    obtain ⟨h₁, h₂⟩ := h
    injection h₁ with h₁
    rw [← h₂, ← h₁]
    exact hfind
  | none =>
    simp only [hfind] at h
    cases hread : readFileData fs (getRealTemplatePath fs root name lang) with
    | none =>
      simp only [hread] at h
      exact Except.noConfusion (congrArg Prod.fst h)
    | some data =>
      simp only [hread] at h
      cases hp : parse lang (mapNameOf name lang) data with
      | error e =>
        simp only [hp] at h
        exact Except.noConfusion (congrArg Prod.fst h)
      | ok parsed =>
        simp only [hp] at h
        simp only [commitTemplate, hfind, Prod.mk.injEq] at h
        obtain ⟨h₁, h₂⟩ := h
        injection h₁ with h₁
        rw [← h₂, ← h₁]
        exact cacheFind_insert_self ..

theorem loadHtml_ok_find {Tmpl PErr : Type}
    (parse : String → String → String → Except PErr Tmpl)
    (fs : Fs) (root : String) (debug : Bool) (m : Cache Tmpl) (name lang : String)
    (t : Tmpl) (m' : Cache Tmpl)
    (h : loadHtml parse fs root debug m name lang = (.ok t, m')) :
    cacheFind m' (mapNameOf name lang) = some t :=
  loadHtmlCore_ok_find parse fs root _ name lang t m' h

theorem loadTextCore_ok_find {Tmpl PErr : Type}
    (parse : String → String → String → Except PErr Tmpl)
    (fs : Fs) (root : String) (m : Cache Tmpl) (name lang : String)
    (t : Tmpl) (m' : Cache Tmpl)
    (h : loadTextCore parse fs root m name lang = (.ok t, m')) :
    cacheFind m' (mapNameOf name lang) = some t := by
  unfold loadTextCore at h
  cases hfind : cacheFind m (mapNameOf name lang) with
  | some tmpl =>
    simp only [hfind, Prod.mk.injEq] at h
    obtain ⟨h₁, h₂⟩ := h
    injection h₁ with h₁
    rw [← h₂, ← h₁]
    exact hfind
  | none =>
    simp only [hfind] at h
    cases hread : readFileData fs (getRealTemplatePath fs root name lang) with
    | none =>
      simp only [hread] at h
      exact Except.noConfusion (congrArg Prod.fst h)
    | some data =>
      simp only [hread] at h
      cases hp : parse lang (mapNameOf name lang) data with
      | error e =>
        simp only [hp] at h
        exact Except.noConfusion (congrArg Prod.fst h)
      | ok parsed =>
        simp only [hp] at h
        simp only [commitTemplate, hfind, Prod.mk.injEq] at h
        obtain ⟨h₁, h₂⟩ := h
        injection h₁ with h₁
        rw [← h₂, ← h₁]
        exact cacheFind_insert_self ..

theorem loadText_ok_find {Tmpl PErr : Type}
    (parse : String → String → String → Except PErr Tmpl)
    (fs : Fs) (root : String) (debug : Bool) (m : Cache Tmpl) (name lang : String)
    (t : Tmpl) (m' : Cache Tmpl)
    (h : loadText parse fs root debug m name lang = (.ok t, m')) :
    cacheFind m' (mapNameOf name lang) = some t :=
  loadTextCore_ok_find parse fs root _ name lang t m' h

theorem loadFrameHtmlCore_ok_find {Tmpl PErr : Type}
    (parseFiles : String → String → List String → Except PErr Tmpl)
    (fs : Fs) (root : String) (frames : List String) (m : Cache Tmpl)
    (frameExist : Bool) (name lang : String)
    (t : Tmpl) (m' : Cache Tmpl) (fl' : Bool)
    (h : loadFrameHtmlCore parseFiles fs root frames m frameExist name lang = (.ok t, m', fl')) :
    cacheFind m' (mapNameOf name lang) = some t := by
  unfold loadFrameHtmlCore at h
  cases hfind : cacheFind m (mapNameOf name lang) with
  | some tmpl =>
    simp only [hfind, Prod.mk.injEq] at h
    obtain ⟨h₁, h₂, h₃⟩ := h
    injection h₁ with h₁
    rw [← h₂, ← h₁]
    exact hfind
  | none =>
    simp only [hfind] at h
    by_cases hv : (frameExistValidate fs root frames frameExist).1 = false
    · rw [if_pos hv] at h
      exact Except.noConfusion (congrArg Prod.fst h)
    · rw [if_neg hv] at h
      by_cases hp0 : getRealTemplatePath fs root name lang = ""
      · rw [if_pos hp0] at h
        exact Except.noConfusion (congrArg Prod.fst h)
      · rw [if_neg hp0] at h
        by_cases hst : statIsNotExist fs (getRealTemplatePath fs root name lang) = true
        · rw [if_pos hst] at h
          exact Except.noConfusion (congrArg Prod.fst h)
        · rw [if_neg hst] at h
          split at h
          · exact Except.noConfusion (congrArg Prod.fst h)
          · rename_i parsed hpf
            simp only [commitTemplate, hfind, Prod.mk.injEq] at h
            obtain ⟨h₁, h₂, h₃⟩ := h
            injection h₁ with h₁
            rw [← h₂, ← h₁]
            exact cacheFind_insert_self ..

theorem loadFrameHtml_ok_find {Tmpl PErr : Type}
    (parseFiles : String → String → List String → Except PErr Tmpl)
    (fs : Fs) (root : String) (frames : List String) (debug : Bool) (m : Cache Tmpl)
    (frameExist : Bool) (name lang : String)
    (t : Tmpl) (m' : Cache Tmpl) (fl' : Bool)
    (h : loadFrameHtml parseFiles fs root frames debug m frameExist name lang = (.ok t, m', fl')) :
    cacheFind m' (mapNameOf name lang) = some t :=
  loadFrameHtmlCore_ok_find parseFiles fs root frames _ frameExist name lang t m' fl' h

theorem loadHtmlCore_cached {Tmpl PErr : Type}
    (parse : String → String → String → Except PErr Tmpl)
    (fs : Fs) (root : String) (m : Cache Tmpl) (name lang : String) (t : Tmpl)
    (h : cacheFind m (mapNameOf name lang) = some t) :
    loadHtmlCore parse fs root m name lang = (.ok t, m) := by
  unfold loadHtmlCore
  simp only [h]

theorem loadTextCore_cached {Tmpl PErr : Type}
    (parse : String → String → String → Except PErr Tmpl)
    (fs : Fs) (root : String) (m : Cache Tmpl) (name lang : String) (t : Tmpl)
    (h : cacheFind m (mapNameOf name lang) = some t) :
    loadTextCore parse fs root m name lang = (.ok t, m) := by
  unfold loadTextCore
  simp only [h]

theorem loadFrameHtmlCore_cached {Tmpl PErr : Type}
    (parseFiles : String → String → List String → Except PErr Tmpl)
    (fs : Fs) (root : String) (frames : List String) (m : Cache Tmpl)
    (frameExist : Bool) (name lang : String) (t : Tmpl)
    (h : cacheFind m (mapNameOf name lang) = some t) :
    loadFrameHtmlCore parseFiles fs root frames m frameExist name lang = (.ok t, m, frameExist) := by
  unfold loadFrameHtmlCore
  simp only [h]

theorem loadHtmlCore_error_cache {Tmpl PErr : Type}
    (parse : String → String → String → Except PErr Tmpl)
    (fs : Fs) (root : String) (m : Cache Tmpl) (name lang : String)
    (err : LoadError PErr) (m₂ : Cache Tmpl)
    (h : loadHtmlCore parse fs root m name lang = (.error err, m₂)) :
    m₂ = m := by
  unfold loadHtmlCore at h
  cases hfind : cacheFind m (mapNameOf name lang) with
  | some tmpl =>
    simp only [hfind, Prod.mk.injEq] at h
    exact Except.noConfusion h.1
  | none =>
    simp only [hfind] at h
    cases hread : readFileData fs (getRealTemplatePath fs root name lang) with
    | none =>
      simp only [hread, Prod.mk.injEq] at h
      exact h.2.symm
    | some data =>
      simp only [hread] at h
      cases hp : parse lang (mapNameOf name lang) data with
      | error e =>
        simp only [hp, Prod.mk.injEq] at h
        exact h.2.symm
      | ok parsed =>
        simp only [hp, commitTemplate, hfind, Prod.mk.injEq] at h
        exact Except.noConfusion h.1

theorem loadTextCore_error_cache {Tmpl PErr : Type}
    (parse : String → String → String → Except PErr Tmpl)
    (fs : Fs) (root : String) (m : Cache Tmpl) (name lang : String)
    (err : LoadError PErr) (m₂ : Cache Tmpl)
    (h : loadTextCore parse fs root m name lang = (.error err, m₂)) :
    m₂ = m := by
  unfold loadTextCore at h
  cases hfind : cacheFind m (mapNameOf name lang) with
  | some tmpl =>
    simp only [hfind, Prod.mk.injEq] at h
    exact Except.noConfusion h.1
  | none =>
    simp only [hfind] at h
    cases hread : readFileData fs (getRealTemplatePath fs root name lang) with
    | none =>
      simp only [hread, Prod.mk.injEq] at h
      exact h.2.symm
    | some data =>
      simp only [hread] at h
      cases hp : parse lang (mapNameOf name lang) data with
      | error e =>
        simp only [hp, Prod.mk.injEq] at h
        exact h.2.symm
      | ok parsed =>
        simp only [hp, commitTemplate, hfind, Prod.mk.injEq] at h
        exact Except.noConfusion h.1

theorem loadFrameHtmlCore_error_cache {Tmpl PErr : Type}
    (parseFiles : String → String → List String → Except PErr Tmpl)
    (fs : Fs) (root : String) (frames : List String) (m : Cache Tmpl)
    (frameExist : Bool) (name lang : String)
    (err : LoadError PErr) (m₂ : Cache Tmpl) (fl' : Bool)
    (h : loadFrameHtmlCore parseFiles fs root frames m frameExist name lang = (.error err, m₂, fl')) :
    m₂ = m := by
  unfold loadFrameHtmlCore at h
  cases hfind : cacheFind m (mapNameOf name lang) with
  | some tmpl =>
    simp only [hfind, Prod.mk.injEq] at h
    exact Except.noConfusion h.1
  | none =>
    simp only [hfind] at h
    by_cases hv : (frameExistValidate fs root frames frameExist).1 = false
    · rw [if_pos hv] at h
      simp only [Prod.mk.injEq] at h
      exact h.2.1.symm
    · rw [if_neg hv] at h
      by_cases hp0 : getRealTemplatePath fs root name lang = ""
      · rw [if_pos hp0] at h
        simp only [Prod.mk.injEq] at h
        exact h.2.1.symm
      · rw [if_neg hp0] at h
        by_cases hst : statIsNotExist fs (getRealTemplatePath fs root name lang) = true
        · rw [if_pos hst] at h
          simp only [Prod.mk.injEq] at h
          exact h.2.1.symm
        · rw [if_neg hst] at h
          split at h
          · simp only [Prod.mk.injEq] at h
            exact h.2.1.symm
          · rename_i parsed hpf
            simp only [commitTemplate, hfind, Prod.mk.injEq] at h
            exact Except.noConfusion h.1

/-! ### Resolver lemmas -/

theorem statIsNotExist_eq_false_iff (fs : Fs) (p : String) :
    statIsNotExist fs p = false ↔ fileExists fs p := by
  unfold statIsNotExist fileExists
  cases fs p <;> simp

theorem getRealTemplatePath_tiers (fs : Fs) (root name lang : String) :
    getRealTemplatePath fs root name lang =
      (if fileExists fs (root ++ "/" ++ lang ++ "/" ++ name ++ ".tmpl") then
        root ++ "/" ++ lang ++ "/" ++ name ++ ".tmpl"
      else if fileExists fs (root ++ "/" ++ baseLangOf lang ++ "/" ++ name ++ ".tmpl") then
        root ++ "/" ++ baseLangOf lang ++ "/" ++ name ++ ".tmpl"
      else if fileExists fs (root ++ "/default/" ++ name ++ ".tmpl") then
        root ++ "/default/" ++ name ++ ".tmpl"
      else "") := by
  simp only [getRealTemplatePath]
  by_cases h₁ : fileExists fs (root ++ "/" ++ lang ++ "/" ++ name ++ ".tmpl")
  · rw [if_pos ((statIsNotExist_eq_false_iff ..).mpr h₁), if_pos h₁]
  · rw [if_neg (fun hc => h₁ ((statIsNotExist_eq_false_iff ..).mp hc)), if_neg h₁]
    by_cases h₂ : fileExists fs (root ++ "/" ++ baseLangOf lang ++ "/" ++ name ++ ".tmpl")
    · rw [if_pos ((statIsNotExist_eq_false_iff ..).mpr h₂), if_pos h₂]
    · rw [if_neg (fun hc => h₂ ((statIsNotExist_eq_false_iff ..).mp hc)), if_neg h₂]
      by_cases h₃ : fileExists fs (root ++ "/default/" ++ name ++ ".tmpl")
      · rw [if_pos ((statIsNotExist_eq_false_iff ..).mpr h₃), if_pos h₃]
      · rw [if_neg (fun hc => h₃ ((statIsNotExist_eq_false_iff ..).mp hc)), if_neg h₃]

theorem splitChar_of_not_mem (sep : Char) (l : List Char) (h : sep ∉ l) :
    splitChar sep l = [l] := by
  induction l with
  | nil => rfl
  | cons c rest ih =>
    have hc : ¬ c = sep := fun e => h (List.mem_cons.mpr (Or.inl e.symm))
    have hrest : sep ∉ rest := fun e => h (List.mem_cons.mpr (Or.inr e))
    simp [splitChar, hc, ih hrest]

theorem baseLangOf_of_no_sep (lang : String) (h : '-' ∉ lang.data) :
    baseLangOf lang = "" := by
  simp [baseLangOf, splitChar_of_not_mem '-' lang.data h]

theorem empty_mid_path (root name : String) :
    root ++ "/" ++ "" ++ "/" ++ name ++ ".tmpl" = root ++ "//" ++ name ++ ".tmpl" := by
  have h : ("/" : String) ++ "/" = "//" := rfl
  rw [String.append_empty, String.append_assoc root "/" "/", h]

/-! ### Cache-key lemmas -/

theorem mapNameOf_data (n l : String) :
    (mapNameOf n l).data = n.data ++ '-' :: l.data := by
  simp [mapNameOf, String.data_append]

theorem append_sep_inj (sep : Char) :
    ∀ (a c : List Char), sep ∉ a → sep ∉ c → ∀ (b d : List Char),
      a ++ sep :: b = c ++ sep :: d → a = c ∧ b = d := by
  intro a
  induction a with
  | nil =>
    intro c ha hc b d h
    cases c with
    | nil => simpa using h
    | cons y c₀ =>
      simp only [List.nil_append, List.cons_append, List.cons.injEq] at h
      exact absurd (List.mem_cons.mpr (Or.inl h.1)) hc
  | cons x a₀ ih =>
    intro c ha hc b d h
    cases c with
    | nil =>
      simp only [List.cons_append, List.nil_append, List.cons.injEq] at h
      exact absurd (List.mem_cons.mpr (Or.inl h.1.symm)) ha
    | cons y c₀ =>
      simp only [List.cons_append, List.cons.injEq] at h
      obtain ⟨hxy, h'⟩ := h
      have ha₀ : sep ∉ a₀ := fun e => ha (List.mem_cons.mpr (Or.inr e))
      have hc₀ : sep ∉ c₀ := fun e => hc (List.mem_cons.mpr (Or.inr e))
      obtain ⟨he, hbd⟩ := ih c₀ ha₀ hc₀ b d h'
      exact ⟨by rw [hxy, he], hbd⟩

/-! ### Claims -/

/-- Claim C1: for every name and language tag, the resolver returns the
exact-language path `{root}/{lang}/{name}.tmpl` if that file exists,
otherwise the base-language path if it exists (the base language being the
piece before the first separator when the tag splits, as computed by
`baseLangOf`), otherwise the default path if it exists, otherwise the empty
not-found sentinel — in that strict order, never skipping a tier whose file
exists. -/
theorem claimC1_resolver_strict_tier_order (fs : Fs) (root name lang : String) :
    getRealTemplatePath fs root name lang =
      (if fileExists fs (root ++ "/" ++ lang ++ "/" ++ name ++ ".tmpl") then
        root ++ "/" ++ lang ++ "/" ++ name ++ ".tmpl"
      else if fileExists fs (root ++ "/" ++ baseLangOf lang ++ "/" ++ name ++ ".tmpl") then
        root ++ "/" ++ baseLangOf lang ++ "/" ++ name ++ ".tmpl"
      else if fileExists fs (root ++ "/default/" ++ name ++ ".tmpl") then
        root ++ "/default/" ++ name ++ ".tmpl"
      else "") :=
  getRealTemplatePath_tiers fs root name lang

/-- Claim C2 (counterexample): the cache key `name + "-" + lang` is not
unique per pair — the distinct pairs ("a", "b-c") and ("a-b", "c") share
the key "a-b-c". -/
theorem claimC2_counterexample :
    mapNameOf "a" "b-c" = mapNameOf "a-b" "c" ∧
    (("a", "b-c") : String × String) ≠ (("a-b", "c") : String × String) := by
  exact ⟨rfl, by decide⟩

/-- Claim C2 (amended): the cache key is unique per (name, language) pair
provided the names contain no separator character '-' (the key then
determines the pair). -/
theorem claimC2_key_injective_dashfree (n₁ l₁ n₂ l₂ : String)
    (h₁ : '-' ∉ n₁.data) (h₂ : '-' ∉ n₂.data)
    (h : mapNameOf n₁ l₁ = mapNameOf n₂ l₂) : n₁ = n₂ ∧ l₁ = l₂ := by
  have hd : n₁.data ++ '-' :: l₁.data = n₂.data ++ '-' :: l₂.data := by
    rw [← mapNameOf_data, ← mapNameOf_data, h]
  obtain ⟨ha, hb⟩ := append_sep_inj '-' n₁.data n₂.data h₁ h₂ l₁.data l₂.data hd
  exact ⟨String.ext ha, String.ext hb⟩

/-- Witness for the amended C2 at the pair ("page", "zh-TW"). -/
theorem claimC2_key_injective_dashfree_witness :
    ("page" : String) = "page" ∧ ("zh-TW" : String) = "zh-TW" :=
  claimC2_key_injective_dashfree "page" "zh-TW" "page" "zh-TW" (by decide) (by decide) rfl

/-- Claim C3 (counterexample): for a language tag without separator the
base-language tier is probed with the empty base language, so the resolver
result does not depend only on the exact-language and default paths: two
filesystems agreeing on both can give different results. -/
theorem claimC3_counterexample :
    fsAllMissing "r/en/n.tmpl" = fsDoubleSlash "r/en/n.tmpl" ∧
    fsAllMissing "r/default/n.tmpl" = fsDoubleSlash "r/default/n.tmpl" ∧
    "en".data.contains '-' = false ∧
    getRealTemplatePath fsAllMissing "r" "n" "en" = "" ∧
    getRealTemplatePath fsDoubleSlash "r" "n" "en" = "r//n.tmpl" := by
  exact ⟨rfl, rfl, rfl, rfl, rfl⟩

/-- Claim C3 (amended): when the language tag contains no separator '-',
the middle tier is not skipped — it probes the empty-base-language path
`{root}//{name}.tmpl`; the resolver's result depends exactly on the
exact-language path, that empty-base path, and the default path. -/
theorem claimC3_no_sep_probes_empty_base (fs : Fs) (root name lang : String)
    (h : '-' ∉ lang.data) :
    getRealTemplatePath fs root name lang =
      (if fileExists fs (root ++ "/" ++ lang ++ "/" ++ name ++ ".tmpl") then
        root ++ "/" ++ lang ++ "/" ++ name ++ ".tmpl"
      else if fileExists fs (root ++ "//" ++ name ++ ".tmpl") then
        root ++ "//" ++ name ++ ".tmpl"
      else if fileExists fs (root ++ "/default/" ++ name ++ ".tmpl") then
        root ++ "/default/" ++ name ++ ".tmpl"
      else "") := by
  rw [getRealTemplatePath_tiers, baseLangOf_of_no_sep lang h, empty_mid_path]

/-- Witness for the amended C3 at lang = "en" on `fsDoubleSlash`. -/
theorem claimC3_no_sep_probes_empty_base_witness :
    getRealTemplatePath fsDoubleSlash "r" "n" "en" = "r//n.tmpl" := by
  rw [claimC3_no_sep_probes_empty_base fsDoubleSlash "r" "n" "en" (by decide)]
  decide

/-- Claim C4: with debug mode off, two successive successful calls to the
same load operation (LoadHtml, LoadText, or LoadFrameHtml) for the same
(name, lang) return the identical cached instance — the second call returns
exactly the entry the first call left in the cache, whatever the filesystem
looks like by then. -/
theorem claimC4_nondebug_idempotent {Tmpl PErr : Type}
    (parse parseT : String → String → String → Except PErr Tmpl)
    (parseF : String → String → List String → Except PErr Tmpl)
    (fs fs₂ : Fs) (root : String) (frames : List String)
    (mh mh' mt mt' mf mf' : Cache Tmpl) (flag flag' : Bool)
    (name lang : String) (t tT tF : Tmpl) :
    (loadHtml parse fs root false mh name lang = (.ok t, mh') →
      loadHtml parse fs₂ root false mh' name lang = (.ok t, mh')) ∧
    (loadText parseT fs root false mt name lang = (.ok tT, mt') →
      loadText parseT fs₂ root false mt' name lang = (.ok tT, mt')) ∧
    (loadFrameHtml parseF fs root frames false mf flag name lang = (.ok tF, mf', flag') →
      loadFrameHtml parseF fs₂ root frames false mf' flag' name lang = (.ok tF, mf', flag')) := by
  refine ⟨fun h => ?_, fun h => ?_, fun h => ?_⟩
  · exact loadHtmlCore_cached parse fs₂ root mh' name lang t
      (loadHtml_ok_find parse fs root false mh name lang t mh' h)
  · exact loadTextCore_cached parseT fs₂ root mt' name lang tT
      (loadText_ok_find parseT fs root false mt name lang tT mt' h)
  · exact loadFrameHtmlCore_cached parseF fs₂ root frames mf' flag' name lang tF
      (loadFrameHtml_ok_find parseF fs root frames false mf flag name lang tF mf' flag' h)

/-- Witness for C4: after a first successful LoadHtml on `fsAllOk`, the
second call returns the same instance on a filesystem with no files left. -/
theorem claimC4_nondebug_idempotent_witness :
    loadHtml parseOk7 fsAllMissing "r" false [("n-en", 7)] "n" "en" =
      (Except.ok 7, [("n-en", 7)]) :=
  (claimC4_nondebug_idempotent parseOk7 parseOk7 parseFilesOk7 fsAllOk fsAllMissing
      "r" [] [] [("n-en", 7)] [] [] [] [] false false "n" "en" 7 7 7).1 (by rfl)

/-- Claim C5: whenever a load operation returns the not-found sentinel or a
parse error, the cache mapping is exactly what it was before the call
(after the debug-mode eviction, which is the only change debug mode makes):
no entry is added, removed or replaced on the error path. -/
theorem claimC5_errors_leave_cache {Tmpl PErr : Type}
    (parse parseT : String → String → String → Except PErr Tmpl)
    (parseF : String → String → List String → Except PErr Tmpl)
    (fs : Fs) (root : String) (frames : List String) (debug : Bool)
    (mh mt mf : Cache Tmpl) (flag : Bool) (name lang : String)
    (err errT errF : LoadError PErr)
    (mh₂ mt₂ mf₂ : Cache Tmpl) (flF : Bool) :
    (loadHtml parse fs root debug mh name lang = (.error err, mh₂) →
      mh₂ = (if debug then cacheErase mh (mapNameOf name lang) else mh)) ∧
    (loadText parseT fs root debug mt name lang = (.error errT, mt₂) →
      mt₂ = (if debug then cacheErase mt (mapNameOf name lang) else mt)) ∧
    (loadFrameHtml parseF fs root frames debug mf flag name lang = (.error errF, mf₂, flF) →
      mf₂ = (if debug then cacheErase mf (mapNameOf name lang) else mf)) := by
  refine ⟨fun h => ?_, fun h => ?_, fun h => ?_⟩
  · exact loadHtmlCore_error_cache parse fs root _ name lang err mh₂ h
  · exact loadTextCore_error_cache parseT fs root _ name lang errT mt₂ h
  · exact loadFrameHtmlCore_error_cache parseF fs root frames _ flag name lang errF mf₂ flF h

/-- Witness for C5: a not-found LoadHtml on an empty filesystem leaves the
empty cache empty. -/
theorem claimC5_errors_leave_cache_witness :
    ([] : Cache Nat) = (if false then cacheErase ([] : Cache Nat) (mapNameOf "n" "en") else []) :=
  (claimC5_errors_leave_cache parseOk7 parseOk7 parseFilesOk7 fsAllMissing "r" [] false
      [] [] [] false "n" "en" .templateNotFound .templateNotFound .templateNotFound
      [] [] [] false).1 (by rfl)

/-- Claim C6: the commit step re-checks the map: an entry already present
wins and the just-parsed value is discarded with the map unchanged;
otherwise the new instance is stored; either way the value returned to the
caller is exactly the instance stored under the key afterwards — and a
successful load always returns the entry stored under its key in the final
cache. -/
theorem claimC6_commit_recheck {Tmpl PErr : Type}
    (parse : String → String → String → Except PErr Tmpl)
    (fs : Fs) (root : String) (debug : Bool)
    (m m' mc : Cache Tmpl) (name lang k : String) (parsed t t₀ : Tmpl) :
    (cacheFind mc k = some t₀ → commitTemplate mc k parsed = (t₀, mc)) ∧
    (cacheFind mc k = none → commitTemplate mc k parsed = (parsed, cacheInsert mc k parsed)) ∧
    cacheFind (commitTemplate mc k parsed).2 k = some (commitTemplate mc k parsed).1 ∧
    (loadHtml parse fs root debug m name lang = (.ok t, m') →
      cacheFind m' (mapNameOf name lang) = some t) := by
  refine ⟨fun h => ?_, fun h => ?_, ?_, fun h => ?_⟩
  · simp [commitTemplate, h]
  · simp [commitTemplate, h]
  · cases hf : cacheFind mc k with
    | some existing => simp [commitTemplate, hf]
    | none => simp [commitTemplate, hf, cacheFind_insert_self]
  · exact loadHtml_ok_find parse fs root debug m name lang t m' h

/-- Witness for C6: committing against a map that already holds the key
returns the existing entry and leaves the map unchanged. -/
theorem claimC6_commit_recheck_witness :
    commitTemplate [("n-en", 5)] "n-en" (9 : Nat) = (5, [("n-en", 5)]) :=
  (claimC6_commit_recheck parseOk7 fsAllMissing "r" false [] [] [("n-en", 5)]
      "n" "en" "n-en" 9 7 5).1 (by rfl)

/-- Claim C7: the frame-existence memo is monotone — set, the validator
answers true without consulting the filesystem at all; unset, the frames
are re-probed on every call, the memo becomes true exactly when all frames
resolve for the empty language, and it stays false on failure. -/
theorem claimC7_frame_memo_monotone (fs fs' : Fs) (root : String)
    (frames : List String) (flag : Bool) :
    frameExistValidate fs root frames true = (true, true) ∧
    frameExistValidate fs root frames true = frameExistValidate fs' root frames true ∧
    (frameExistValidate fs root frames flag).2 = (flag || framesAllExist fs root frames) ∧
    (frameExistValidate fs root frames flag).1 = (frameExistValidate fs root frames flag).2 ∧
    frameExistValidate fs root frames false =
      (if framesAllExist fs root frames then (true, true) else (false, false)) := by
  cases flag <;> cases hall : framesAllExist fs root frames <;>
    simp [frameExistValidate, hall]

/-- Claim C8 (counterexample): a LoadFrameHtml call served from a warm
cache returns the cached template even though every frame file is absent
and the page file exists — it does not return the not-found sentinel, so
validation does not come first on every call. -/
theorem claimC8_counterexample :
    framesAllExist fsPageOnly "r" structTemplateFrames = false ∧
    fileExists fsPageOnly "r/en/page.tmpl" ∧
    loadFrameHtml parseFilesOk7 fsPageOnly "r" structTemplateFrames false
      [("page-en", 9)] false "page" "en" = (.ok 9, [("page-en", 9)], false) := by
  refine ⟨rfl, by decide, rfl⟩

/-- Claim C8 (amended): on a call that is not served from the cache (no
entry for the key after the debug-mode eviction) and whose frame memo is
still unset, LoadFrameHtml validates the frames first and returns the
not-found sentinel when any frame file is absent — before any page-path
resolution, and regardless of whether the page file exists. -/
theorem claimC8_miss_validates_frames_first {Tmpl PErr : Type}
    (parseFiles : String → String → List String → Except PErr Tmpl)
    (fs : Fs) (root : String) (frames : List String) (debug : Bool)
    (m : Cache Tmpl) (name lang : String)
    (hmiss : cacheFind (if debug then cacheErase m (mapNameOf name lang) else m)
      (mapNameOf name lang) = none)
    (hframes : framesAllExist fs root frames = false) :
    loadFrameHtml parseFiles fs root frames debug m false name lang =
      (.error .templateNotFound,
        (if debug then cacheErase m (mapNameOf name lang) else m), false) := by
  unfold loadFrameHtml loadFrameHtmlCore
  simp only [hmiss, frameExistValidate, hframes]
  simp

/-- Witness for the amended C8: a cold LoadFrameHtml with the page present
but the frames absent returns the not-found sentinel. -/
theorem claimC8_miss_validates_frames_first_witness :
    loadFrameHtml parseFilesOk7 fsPageOnly "r" structTemplateFrames false
      ([] : Cache Nat) false "page" "en" = (.error .templateNotFound, [], false) :=
  claimC8_miss_validates_frames_first parseFilesOk7 fsPageOnly "r" structTemplateFrames
    false [] "page" "en" (by rfl) (by rfl)

/-- Claim C9: debug mode is on exactly when the preferred variable
APP_DEBUG (or, when it is unset/empty, the legacy KKAPP_DEBUG) equals
"TRUE" case-insensitively; under debug mode every load operation first
deletes the requested key's cache entry — the eviction empties exactly that
key and touches no other key — and then runs the normal load path on the
evicted cache. -/
theorem claimC9_debug_toggle_and_eviction {Tmpl PErr : Type}
    (env : String → String)
    (parse parseT : String → String → String → Except PErr Tmpl)
    (parseF : String → String → List String → Except PErr Tmpl)
    (fs : Fs) (root : String) (frames : List String)
    (mh mt mf : Cache Tmpl) (flag : Bool) (name lang k : String) :
    (isDebugEnv env = true ↔
      (if env "APP_DEBUG" = "" then (env "KKAPP_DEBUG").toUpper = "TRUE"
       else (env "APP_DEBUG").toUpper = "TRUE")) ∧
    cacheFind (cacheErase mh (mapNameOf name lang)) (mapNameOf name lang) = none ∧
    (k ≠ mapNameOf name lang →
      cacheFind (cacheErase mh (mapNameOf name lang)) k = cacheFind mh k) ∧
    loadHtml parse fs root true mh name lang =
      loadHtml parse fs root false (cacheErase mh (mapNameOf name lang)) name lang ∧
    loadText parseT fs root true mt name lang =
      loadText parseT fs root false (cacheErase mt (mapNameOf name lang)) name lang ∧
    loadFrameHtml parseF fs root frames true mf flag name lang =
      loadFrameHtml parseF fs root frames false (cacheErase mf (mapNameOf name lang)) flag name lang := by
  refine ⟨?_, cacheFind_erase_self .., fun hk => cacheFind_erase_ne mh (mapNameOf name lang) k hk,
    rfl, rfl, rfl⟩
  unfold isDebugEnv
  by_cases hp : env "APP_DEBUG" = ""
  · simp [hp]
  · simp [hp]

/-- Witness for C9: the eviction of key "n-en" leaves the entry under "x"
untouched. -/
theorem claimC9_debug_toggle_and_eviction_witness :
    cacheFind (cacheErase [("n-en", 7), ("x", 8)] (mapNameOf "n" "en")) "x" =
      cacheFind [("n-en", 7), ("x", 8)] "x" :=
  ((claimC9_debug_toggle_and_eviction (fun _ => "") parseOk7 parseOk7 parseFilesOk7
      fsAllMissing "r" [] [("n-en", 7), ("x", 8)] [] [] false "n" "en" "x").2.2.1 (by decide))

/-- Claim C10: when the resolved template path probes as existing but
reading it fails with any error other than not-exist (e.g. a permission
error), LoadHtml and LoadText return the same not-found sentinel as a
genuinely missing template, not the underlying I/O error. -/
theorem claimC10_other_read_errors_become_notfound {Tmpl PErr : Type}
    (parse parseT : String → String → String → Except PErr Tmpl)
    (fs : Fs) (root : String) (mh mt : Cache Tmpl) (name lang : String)
    (hfs : fs (getRealTemplatePath fs root name lang) = .otherErr)
    (hmh : cacheFind mh (mapNameOf name lang) = none)
    (hmt : cacheFind mt (mapNameOf name lang) = none) :
    loadHtml parse fs root false mh name lang = (.error .templateNotFound, mh) ∧
    loadText parseT fs root false mt name lang = (.error .templateNotFound, mt) := by
  constructor
  · show loadHtmlCore parse fs root mh name lang = _
    unfold loadHtmlCore
    simp only [hmh]
    simp [readFileData, hfs]
  · show loadTextCore parseT fs root mt name lang = _
    unfold loadTextCore
    simp only [hmt]
    simp [readFileData, hfs]

/-- Witness for C10 on `fsPermDenied`: the exact-language file resolves but
reads with a non-not-exist error, and both loaders return the sentinel. -/
theorem claimC10_other_read_errors_become_notfound_witness :
    loadHtml parseOk7 fsPermDenied "r" false ([] : Cache Nat) "n" "en" =
        (.error .templateNotFound, []) ∧
    loadText parseOk7 fsPermDenied "r" false ([] : Cache Nat) "n" "en" =
        (.error .templateNotFound, []) :=
  claimC10_other_read_errors_become_notfound parseOk7 parseOk7 fsPermDenied "r"
    [] [] "n" "en" (by rfl) rfl rfl
